import Mathlib

/-!
Shallow embedding of the Pop2Piano tokenizer decoding pipeline
(src/transformers/models/pop2piano/tokenization_pop2piano.py).

Token ids, time indices and velocities are Python ints, modelled as Int.
Beatstep times are real-valued; they are modelled as rationals.
The configuration values loaded from vocab.json become a Config structure;
the four token-type constants stored in the vocabulary are modelled as an
inductive type with four distinct constructors, mirroring the four-way
dispatch of the source.
-/

namespace Pop2Piano

/-- Configuration loaded from the vocabulary file: the four range sizes,
the bar count and the default velocity. -/
structure Config where
  vocab_size_special : Nat
  vocab_size_note : Nat
  vocab_size_velocity : Nat
  vocab_size_time : Nat
  num_bars : Nat
  default_velocity : Int
deriving DecidableEq

/-- The four token-type constants of the vocabulary
(TOKEN_SPECIAL, TOKEN_NOTE, TOKEN_VELOCITY, TOKEN_TIME): four distinct
values, compared for equality in the source dispatch. -/
inductive TokenType where
  | SPECIAL
  | NOTE
  | VELOCITY
  | TIME
deriving DecidableEq

/-- A note event as built by the decoder: the source uses the list
[onset_idx, offset_idx, pitch, velocity]. -/
structure NoteEv where
  onset : Int
  offset : Int
  pitch : Int
  velocity : Int
deriving DecidableEq

/-- Default configuration: sizes 4, 128, 2, 100, two bars, default
velocity 77 (the published pop2piano vocabulary). -/
def defaultConfig : Config :=
  { vocab_size_special := 4
    vocab_size_note := 128
    vocab_size_velocity := 2
    vocab_size_time := 100
    num_bars := 2
    default_velocity := 77 }

/-- Embedding of Pop2PianoTokenizer._convert_id_to_token (lines 139-165):
compare the id against the cumulative range bounds from TIME down to
SPECIAL; the value is the id minus the lower bound of its range, and TIME
additionally adds time_idx_offset. -/
def convert_id_to_token (cfg : Config) (token : Int) (time_idx_offset : Int) :
    TokenType × Int :=
  if token ≥ ((cfg.vocab_size_special : Int) + cfg.vocab_size_note + cfg.vocab_size_velocity) then
    (TokenType.TIME,
      (token - ((cfg.vocab_size_special : Int) + cfg.vocab_size_note + cfg.vocab_size_velocity))
        + time_idx_offset)
  else if token ≥ ((cfg.vocab_size_special : Int) + cfg.vocab_size_note) then
    (TokenType.VELOCITY, token - ((cfg.vocab_size_special : Int) + cfg.vocab_size_note))
  else if token ≥ (cfg.vocab_size_special : Int) then
    (TokenType.NOTE, token - (cfg.vocab_size_special : Int))
  else
    (TokenType.SPECIAL, token)

/-- Embedding of Pop2PianoTokenizer._convert_token_to_id (lines 169-189):
add the lower bound of the range selected by the token type. The
unknown-type branch of the source (return -1) is unreachable here because
the embedded type is exactly the four constants. -/
def convert_token_to_id (cfg : Config) (token : Int) : TokenType → Int
  | TokenType.TIME =>
      (cfg.vocab_size_special : Int) + cfg.vocab_size_note + cfg.vocab_size_velocity + token
  | TokenType.VELOCITY => (cfg.vocab_size_special : Int) + cfg.vocab_size_note + token
  | TokenType.NOTE => (cfg.vocab_size_special : Int) + token
  | TokenType.SPECIAL => token

/-- Size of the value range of each token type. -/
def type_range_size (cfg : Config) : TokenType → Nat
  | TokenType.SPECIAL => cfg.vocab_size_special
  | TokenType.NOTE => cfg.vocab_size_note
  | TokenType.VELOCITY => cfg.vocab_size_velocity
  | TokenType.TIME => cfg.vocab_size_time

/-- Embedding of token_time_to_note (lines 47-52): advance the cursor by
the token value and clamp at the cutoff when one is given. -/
def token_time_to_note (number : Int) (cutoff_time_idx : Option Int) (current_idx : Int) : Int :=
  match cutoff_time_idx with
  | none => current_idx + number
  | some cutoff => min (current_idx + number) cutoff

/-- Embedding of token_note_to_note (lines 55-67). The Python function
mutates note_onsets_ready in place and returns notes; here both the new
note list and the new onset table are returned. The onset table is a
total map from pitch to an optional recorded onset index (the source list
of length vocab_size_note + 1; NOTE values always lie below
vocab_size_note, so the functional map is exercised on the same domain). -/
def token_note_to_note (number : Int) (current_velocity : Int) (default_velocity : Int)
    (note_onsets_ready : Int → Option Int) (current_idx : Int) (notes : List NoteEv) :
    List NoteEv × (Int → Option Int) :=
  match note_onsets_ready number with
  | some onset_idx =>
      if onset_idx < current_idx then
        (notes ++ [⟨onset_idx, current_idx, number, default_velocity⟩],
          fun p =>
            if p = number then (if current_velocity = 0 then none else some current_idx)
            else note_onsets_ready p)
      else
        (notes, note_onsets_ready)
  | none =>
      (notes, fun p => if p = number then some current_idx else note_onsets_ready p)

/-- The token scan loop of relative_tokens_to_notes (lines 293-318):
fold over the decoded words, tracking cursor, velocity, onset table and
emitted notes; a SPECIAL token with value 1 stops the scan. Returns the
final cursor, onset table and note list. -/
def scan_words (cfg : Config) (cutoff_time_idx : Option Int) :
    List (TokenType × Int) → Int → Int → (Int → Option Int) → List NoteEv →
    Int × (Int → Option Int) × List NoteEv
  | [], current_idx, _, note_onsets_ready, notes => (current_idx, note_onsets_ready, notes)
  | (tt, number) :: rest, current_idx, current_velocity, note_onsets_ready, notes =>
    match tt with
    | TokenType.SPECIAL =>
        if number = 1 then (current_idx, note_onsets_ready, notes)
        else scan_words cfg cutoff_time_idx rest current_idx current_velocity note_onsets_ready notes
    | TokenType.TIME =>
        scan_words cfg cutoff_time_idx rest
          (token_time_to_note number cutoff_time_idx current_idx)
          current_velocity note_onsets_ready notes
    | TokenType.VELOCITY =>
        scan_words cfg cutoff_time_idx rest current_idx number note_onsets_ready notes
    | TokenType.NOTE =>
        match token_note_to_note number current_velocity cfg.default_velocity
            note_onsets_ready current_idx notes with
        | (notes2, onsets2) =>
            scan_words cfg cutoff_time_idx rest current_idx current_velocity onsets2 notes2

/-- One step of the force-close loop (lines 320-329): for a pitch with a
pending onset, close it at max(cursor, cutoff) where the cutoff is
onset + 1 when no cutoff index is given and max(cutoff_time_idx, onset + 1)
otherwise. -/
def close_note (cfg : Config) (cutoff_time_idx : Option Int) (current_idx : Int)
    (note_onsets_ready : Int → Option Int) (pitch : Nat) : Option NoteEv :=
  match note_onsets_ready (pitch : Int) with
  | none => none
  | some note_onset =>
      some ⟨note_onset,
        max current_idx
          (match cutoff_time_idx with
            | none => note_onset + 1
            | some cutoff => max cutoff (note_onset + 1)),
        (pitch : Int), cfg.default_velocity⟩

/-- The force-close loop over all vocab_size_note + 1 pitch slots
(lines 320-329), appending one closing note per still-pending onset. -/
def force_close (cfg : Config) (cutoff_time_idx : Option Int) (current_idx : Int)
    (note_onsets_ready : Int → Option Int) (notes : List NoteEv) : List NoteEv :=
  (List.range (cfg.vocab_size_note + 1)).foldl
    (fun acc pitch =>
      match close_note cfg cutoff_time_idx current_idx note_onsets_ready pitch with
      | none => acc
      | some note => acc ++ [note])
    notes

/-- Composite sort key of line 335: onset * 128 + offset. -/
def note_key (n : NoteEv) : Int := n.onset * 128 + n.offset

/-- Insertion into a key-sorted list, keeping earlier elements first among
equal keys. -/
def insert_by_key (n : NoteEv) : List NoteEv → List NoteEv
  | [] => [n]
  | m :: ms => if note_key m < note_key n then m :: insert_by_key n ms else n :: m :: ms

/-- Model of the argsort-based reordering of line 336: sort ascending by
note_key. The numpy call is argsort with its default kind, whose ordering
of equal keys is not documented as stable; this model is a stable sort, and
no claim settled against it depends on the tie order. -/
def sort_notes (notes : List NoteEv) : List NoteEv := notes.foldr insert_by_key []

/-- The leading-token trim of lines 283-286: drop the first token when it
is at least the total vocabulary size (the end-of-sequence fence id). The
source indexes tokens[0] and therefore faults on an empty input; the
claims below never depend on the empty case. -/
def trim_leading_eos (cfg : Config) (tokens : List Int) : List Int :=
  match tokens with
  | [] => []
  | t :: rest =>
      if t ≥ ((cfg.vocab_size_special : Int) + cfg.vocab_size_note + cfg.vocab_size_velocity
          + cfg.vocab_size_time) then rest
      else t :: rest

/-- Cursor, onset table and note list after decoding every token with
time offset 0 (line 288) and running the scan loop from the initial
state: cursor start_idx, velocity 0, no pending onsets, no notes. -/
def scan_result (cfg : Config) (tokens : List Int) (start_idx : Int)
    (cutoff_time_idx : Option Int) : Int × (Int → Option Int) × List NoteEv :=
  scan_words cfg cutoff_time_idx
    ((trim_leading_eos cfg tokens).map (fun token => convert_id_to_token cfg token 0))
    start_idx 0 (fun _ => none) []

/-- The notes accumulated by relative_tokens_to_notes before the final
sort: the scanned notes followed by the force-closed pending onsets. -/
def decoded_notes (cfg : Config) (tokens : List Int) (start_idx : Int)
    (cutoff_time_idx : Option Int) : List NoteEv :=
  force_close cfg cutoff_time_idx
    (scan_result cfg tokens start_idx cutoff_time_idx).1
    (scan_result cfg tokens start_idx cutoff_time_idx).2.1
    (scan_result cfg tokens start_idx cutoff_time_idx).2.2

/-- Embedding of Pop2PianoTokenizer.relative_tokens_to_notes
(lines 271-337): empty result for no notes, otherwise the notes sorted by
the composite key. -/
def relative_tokens_to_notes (cfg : Config) (tokens : List Int) (start_idx : Int)
    (cutoff_time_idx : Option Int) : List NoteEv :=
  if decoded_notes cfg tokens start_idx cutoff_time_idx = [] then []
  else sort_notes (decoded_notes cfg tokens start_idx cutoff_time_idx)

/-- Embedding of Pop2PianoTokenizer.relative_batch_tokens_to_notes
(lines 191-233): row i decodes with start index
beat_offset_idx + i * bars_per_batch * 4 and cutoff
cutoff_time_idx + that start index; results are concatenated in row
order (empty rows contribute nothing). -/
def relative_batch_tokens_to_notes (cfg : Config) (tokens : List (List Int))
    (beat_offset_idx : Int) (bars_per_batch : Int) (cutoff_time_idx : Int) : List NoteEv :=
  (tokens.enum.map (fun p =>
    relative_tokens_to_notes cfg p.2
      (beat_offset_idx + (p.1 : Int) * bars_per_batch * 4)
      (some (cutoff_time_idx + (beat_offset_idx + (p.1 : Int) * bars_per_batch * 4))))).flatten

/-- A materialized note as handed to the external MIDI library:
velocity, pitch, start seconds, end seconds. -/
structure MidiNote where
  velocity : Int
  pitch : Int
  start : ℚ
  end_ : ℚ
deriving DecidableEq

/-- Embedding of Pop2PianoTokenizer.notes_to_midi (lines 339-369): each
note maps to grid values at its onset and offset indices minus
offset_sec. Out-of-range grid indices fault in the source; getD stands in
for the lookup and the claims below only use in-range indices. The
external remove_invalid_notes pruning is out of scope and not modelled. -/
def notes_to_midi (notes : List NoteEv) (beatstep : List ℚ) (offset_sec : ℚ) : List MidiNote :=
  notes.map (fun n =>
    { velocity := n.velocity, pitch := n.pitch,
      start := beatstep.getD n.onset.toNat 0 - offset_sec,
      end_ := beatstep.getD n.offset.toNat 0 - offset_sec })

/-- Embedding of Pop2PianoTokenizer.relative_batch_tokens_to_midi
(lines 235-267): decode the batch, then materialize against the beatstep
grid with offset_sec = beatstep[beat_offset_idx]. -/
def relative_batch_tokens_to_midi (cfg : Config) (tokens : List (List Int)) (beatstep : List ℚ)
    (beat_offset_idx : Int) (bars_per_batch : Int) (cutoff_time_idx : Int) : List MidiNote :=
  notes_to_midi
    (relative_batch_tokens_to_notes cfg tokens beat_offset_idx bars_per_batch cutoff_time_idx)
    beatstep (beatstep.getD beat_offset_idx.toNat 0)

/-- Per-example body of Pop2PianoTokenizer.__call__ (lines 490-500):
materialize with the extrapolated beatstep as grid (beat_offset_idx 0,
bars_per_batch num_bars, cutoff (num_bars + 1) * 4), then add the first
raw beatstep value to every start and end. -/
def orchestrate_example (cfg : Config) (each_tokens_ids : List (List Int))
    (extrapolated_beatstep : List ℚ) (beatsteps_head : ℚ) : List MidiNote :=
  (relative_batch_tokens_to_midi cfg each_tokens_ids extrapolated_beatstep 0
      (cfg.num_bars : Int) (((cfg.num_bars : Int) + 1) * 4)).map
    (fun note =>
      { note with start := note.start + beatsteps_head, end_ := note.end_ + beatsteps_head })

/-- The row-slice bounds computed by the example loop of __call__
(lines 467-503): each example slices rows [start_idx, end_idx) for the
next separator position end_idx, and then start_idx is incremented by
end_idx + 1 (the source statement start_idx += end_idx + 1). -/
def slice_bounds_from (start_idx : Nat) : List Nat → List (Nat × Nat)
  | [] => []
  | end_idx :: rest => (start_idx, end_idx) :: slice_bounds_from (start_idx + end_idx + 1) rest

/-- Slice bounds for all examples, starting from row 0, given the sorted
separator-row positions. -/
def slice_bounds (batch_idx : List Nat) : List (Nat × Nat) := slice_bounds_from 0 batch_idx

/-- Modelled from the spec: slice bounds where the i-th example takes the
rows strictly between the previous separator (exclusive) and the current
one (exclusive), i.e. the next slice starts right after the current
separator row. -/
def spec_slice_bounds_from (prev_bound : Nat) : List Nat → List (Nat × Nat)
  | [] => []
  | end_idx :: rest => (prev_bound, end_idx) :: spec_slice_bounds_from (end_idx + 1) rest

/-- Spec-side slice bounds for all examples, starting from row 0. -/
def spec_slice_bounds (batch_idx : List Nat) : List (Nat × Nat) := spec_slice_bounds_from 0 batch_idx

/-- The no-attention-mask validation of __call__ (lines 448-457): an
error is raised exactly when the beatsteps count or the extrapolated
beatstep count differs from 1. -/
def no_mask_length_mismatch (beatsteps_len extrapolated_len : Nat) : Bool :=
  beatsteps_len != 1 || extrapolated_len != 1

/-- The batch index list used when no attention mask is present
(line 463): the single bound token_ids.shape[0], so exactly one example
is processed. -/
def no_mask_batch_idx (token_rows_len : Nat) : List Nat := [token_rows_len]

/-- Column indices of occurrences of eos_id within one row, in order
(the per-row contribution of np.where(each_tokens_ids == eos)[1]). -/
def row_eos_indices_from (eos_id : Int) (col : Nat) : List Int → List Nat
  | [] => []
  | v :: rest =>
      if v = eos_id then col :: row_eos_indices_from eos_id (col + 1) rest
      else row_eos_indices_from eos_id (col + 1) rest

/-- All column indices (row-major) where a row holds eos_id: the second
component of np.where(each_tokens_ids == eos) at line 471. -/
def eos_column_indices (rows : List (List Int)) (eos_id : Int) : List Nat :=
  (rows.map (fun row => row_eos_indices_from eos_id 0 row)).flatten

/-- The trailing-padding trim bound of line 471:
np.max(np.where(each_tokens_ids == eos)[1]) + 1. np.max raises on an
empty index set, modelled as none. -/
def trim_upper_bound (rows : List (List Int)) (eos_id : Int) : Option Nat :=
  match eos_column_indices rows eos_id with
  | [] => none
  | j :: js => some (js.foldl max j + 1)


/-- C1: the claim says the token rows used for the i-th example are exactly
the rows strictly between consecutive separator rows. In the code the loop
advances with start_idx += end_idx + 1 (line 503), accumulating previous
start indices, so from the third example on the slice bounds diverge from
the claimed ones: with separators at rows 1, 3, 5 the code slices rows
[6, 5) for the third example instead of the claimed [4, 5). -/
theorem C1_slicing_bug :
    slice_bounds [1, 3, 5] = [(0, 1), (2, 3), (6, 5)] ∧
    spec_slice_bounds [1, 3, 5] = [(0, 1), (2, 3), (4, 5)] ∧
    slice_bounds [1, 3, 5] ≠ spec_slice_bounds [1, 3, 5] := by
  refine ⟨by decide, by decide, by decide⟩

/-- C2 counterexample: with cursor 5, TIME value 1 and cutoff 3 the cursor
after token_time_to_note is 3, strictly below its previous value, so the
cursor is not monotone for cutoffs below the current cursor. -/
theorem C2_counterexample :
    token_time_to_note 1 (some 3) 5 = 3 ∧ ¬ ((5 : Int) ≤ token_time_to_note 1 (some 3) 5) := by
  refine ⟨by decide, by decide⟩

/-- C2 (amended): processing a TIME token with a non-negative value never
decreases the cursor provided the cutoff, when set, is at least the
current cursor. -/
theorem C2_cursor_monotone (number current_idx : Int) (cutoff_time_idx : Option Int)
    (hnum : 0 ≤ number) (hcut : ∀ k, cutoff_time_idx = some k → current_idx ≤ k) :
    current_idx ≤ token_time_to_note number cutoff_time_idx current_idx := by
  cases cutoff_time_idx with
  | none => simp only [token_time_to_note]; omega
  | some k =>
      have hk := hcut k rfl
      simp only [token_time_to_note, le_min_iff]
      omega

/-- C2 witness: cursor 2, TIME value 3, cutoff 10. -/
theorem C2_witness : (2 : Int) ≤ token_time_to_note 3 (some 10) 2 :=
  C2_cursor_monotone 3 2 (some 10) (by decide) (fun k hk => by
    simp only [Option.some.injEq] at hk
    omega)

/-- C8: without an attention mask, the validation of lines 448-457 raises
exactly when the beatsteps count or the extrapolated-beatstep count is
not 1; in particular more than one of either raises, and with exactly one
of each the validation passes and processing uses the single batch bound
token_ids.shape[0], i.e. one example. -/
theorem C8_no_mask_validation (beatsteps_len extrapolated_len token_rows_len : Nat) :
    ((1 < beatsteps_len ∨ 1 < extrapolated_len) →
      no_mask_length_mismatch beatsteps_len extrapolated_len = true) ∧
    (beatsteps_len = 1 → extrapolated_len = 1 →
      no_mask_length_mismatch beatsteps_len extrapolated_len = false ∧
      no_mask_batch_idx token_rows_len = [token_rows_len] ∧
      (no_mask_batch_idx token_rows_len).length = 1) := by
  constructor
  · intro h
    simp only [no_mask_length_mismatch, Bool.or_eq_true, bne_iff_ne, ne_eq]
    omega
  · intro h1 h2
    subst h1; subst h2
    exact ⟨by decide, rfl, rfl⟩

/-- C8 witness: two beatstep arrays raise; one of each passes with a
single example. -/
theorem C8_witness :
    no_mask_length_mismatch 2 1 = true ∧ no_mask_length_mismatch 1 1 = false := by
  refine ⟨(C8_no_mask_validation 2 1 7).1 (Or.inl (by decide)),
    ((C8_no_mask_validation 1 1 7).2 rfl rfl).1⟩


/-- C3: ids outside all four ranges are not classified as if in range:
an id at or above the total vocabulary size decodes to TIME with a value
at or above vocab_size_time (outside the TIME value range), and a negative
id decodes to SPECIAL with its own negative value (outside the SPECIAL
value range); ids exactly at a range edge classify into the higher,
nearer-to-TIME range, with value 0. -/
theorem C3_out_of_range_classification (cfg : Config) (t : Int) :
    (((cfg.vocab_size_special : Int) + cfg.vocab_size_note + cfg.vocab_size_velocity
        + cfg.vocab_size_time ≤ t) →
      convert_id_to_token cfg t 0 =
        (TokenType.TIME,
          t - ((cfg.vocab_size_special : Int) + cfg.vocab_size_note + cfg.vocab_size_velocity)) ∧
      (cfg.vocab_size_time : Int) ≤
        t - ((cfg.vocab_size_special : Int) + cfg.vocab_size_note + cfg.vocab_size_velocity)) ∧
    (t < 0 → convert_id_to_token cfg t 0 = (TokenType.SPECIAL, t)) ∧
    (0 < cfg.vocab_size_note →
      convert_id_to_token cfg (cfg.vocab_size_special : Int) 0 = (TokenType.NOTE, 0)) ∧
    (0 < cfg.vocab_size_velocity →
      convert_id_to_token cfg ((cfg.vocab_size_special : Int) + cfg.vocab_size_note) 0 =
        (TokenType.VELOCITY, 0)) ∧
    convert_id_to_token cfg
        ((cfg.vocab_size_special : Int) + cfg.vocab_size_note + cfg.vocab_size_velocity) 0 =
      (TokenType.TIME, 0) := by
  refine ⟨?_, ?_, ?_, ?_, ?_⟩
  · intro h
    rw [convert_id_to_token, if_pos (by omega)]
    simp only [Prod.mk.injEq, add_zero]
    exact ⟨trivial, by omega⟩
  · intro h
    rw [convert_id_to_token, if_neg (by omega), if_neg (by omega),
      if_neg (by omega)]
  · intro h
    rw [convert_id_to_token, if_neg (by omega), if_neg (by omega),
      if_pos (by omega)]
    norm_num
  · intro h
    rw [convert_id_to_token, if_neg (by omega), if_pos (by omega)]
    norm_num
  · rw [convert_id_to_token, if_pos (by omega)]
    norm_num

/-- C3 witness at the default configuration: total size is 234;
id 400 decodes to TIME with out-of-range value 266, id -5 decodes to
SPECIAL with value -5, and the edge ids 4, 132, 134 decode into the
higher ranges NOTE, VELOCITY and TIME with value 0. -/
theorem C3_witness :
    convert_id_to_token defaultConfig 400 0 = (TokenType.TIME, 266) ∧
    convert_id_to_token defaultConfig (-5) 0 = (TokenType.SPECIAL, -5) ∧
    convert_id_to_token defaultConfig 4 0 = (TokenType.NOTE, 0) ∧
    convert_id_to_token defaultConfig 132 0 = (TokenType.VELOCITY, 0) ∧
    convert_id_to_token defaultConfig 134 0 = (TokenType.TIME, 0) := by
  have h := C3_out_of_range_classification defaultConfig 400
  have h2 := C3_out_of_range_classification defaultConfig (-5)
  refine ⟨?_, h2.2.1 (by decide), h.2.2.1 (by decide), h.2.2.2.1 (by decide), h.2.2.2.2⟩
  have h3 := (h.1 (by decide)).1
  simpa using h3

/-- C6: for each token type and every value within the range size of
that type, decoding the encoded id with time offset 0 returns the original
type and value. -/
theorem C6_roundtrip (cfg : Config) (tt : TokenType) (v : Int) (h0 : 0 ≤ v)
    (h1 : v < (type_range_size cfg tt : Int)) :
    convert_id_to_token cfg (convert_token_to_id cfg v tt) 0 = (tt, v) := by
  cases tt
  · rw [type_range_size] at h1
    rw [convert_token_to_id, convert_id_to_token, if_neg (by omega),
      if_neg (by omega), if_neg (by omega)]
  · rw [type_range_size] at h1
    rw [convert_token_to_id, convert_id_to_token, if_neg (by omega),
      if_neg (by omega), if_pos (by omega)]
    norm_num
  · rw [type_range_size] at h1
    rw [convert_token_to_id, convert_id_to_token, if_neg (by omega),
      if_pos (by omega)]
    norm_num
  · rw [type_range_size] at h1
    rw [convert_token_to_id, convert_id_to_token, if_pos (by omega)]
    simp only [Prod.mk.injEq, add_zero]
    exact ⟨trivial, by ring⟩

/-- C6 witness at the default configuration, one instance per type:
SPECIAL 3, NOTE 60, VELOCITY 1, TIME 42 all round-trip. -/
theorem C6_witness :
    convert_id_to_token defaultConfig (convert_token_to_id defaultConfig 3 TokenType.SPECIAL) 0 =
      (TokenType.SPECIAL, 3) ∧
    convert_id_to_token defaultConfig (convert_token_to_id defaultConfig 60 TokenType.NOTE) 0 =
      (TokenType.NOTE, 60) ∧
    convert_id_to_token defaultConfig (convert_token_to_id defaultConfig 1 TokenType.VELOCITY) 0 =
      (TokenType.VELOCITY, 1) ∧
    convert_id_to_token defaultConfig (convert_token_to_id defaultConfig 42 TokenType.TIME) 0 =
      (TokenType.TIME, 42) :=
  ⟨C6_roundtrip defaultConfig TokenType.SPECIAL 3 (by decide) (by decide),
    C6_roundtrip defaultConfig TokenType.NOTE 60 (by decide) (by decide),
    C6_roundtrip defaultConfig TokenType.VELOCITY 1 (by decide) (by decide),
    C6_roundtrip defaultConfig TokenType.TIME 42 (by decide) (by decide)⟩


lemma row_eos_indices_from_nil (eos_id : Int) (row : List Int)
    (h : ∀ v ∈ row, v ≠ eos_id) : ∀ col, row_eos_indices_from eos_id col row = [] := by
  induction row with
  | nil => intro col; rfl
  | cons v rest ih =>
      intro col
      rw [row_eos_indices_from, if_neg (h v (List.mem_cons_self v rest))]
      exact ih (fun w hw => h w (List.mem_cons_of_mem v hw)) (col + 1)

lemma eos_column_indices_nil (rows : List (List Int)) (eos_id : Int)
    (h : ∀ row ∈ rows, ∀ v ∈ row, v ≠ eos_id) : eos_column_indices rows eos_id = [] := by
  induction rows with
  | nil => rfl
  | cons row rest ih =>
      rw [eos_column_indices, List.map_cons, List.flatten_cons,
        row_eos_indices_from_nil eos_id row (h row (List.mem_cons_self row rest)) 0,
        List.nil_append]
      exact ih (fun r hr => h r (List.mem_cons_of_mem row hr))

/-- C10: when the sliced token rows of an example contain no occurrence of the
end-of-sequence id, the trailing-padding trim bound of line 471 is the
maximum of an empty index set, which np.max rejects: the computation
fails (modelled as none) instead of treating the example as empty. -/
theorem C10_no_eos_error (rows : List (List Int)) (eos_id : Int)
    (h : ∀ row ∈ rows, ∀ v ∈ row, v ≠ eos_id) :
    trim_upper_bound rows eos_id = none := by
  rw [trim_upper_bound, eos_column_indices_nil rows eos_id h]

/-- C10 witness: two rows with no occurrence of the eos id 1. -/
theorem C10_witness : trim_upper_bound [[5, 6], [7, 8]] 1 = none :=
  C10_no_eos_error [[5, 6], [7, 8]] 1 (by decide)

lemma token_note_to_note_none (number current_velocity default_velocity : Int)
    (note_onsets_ready : Int → Option Int) (current_idx : Int) (notes : List NoteEv)
    (ho : note_onsets_ready number = none) :
    token_note_to_note number current_velocity default_velocity note_onsets_ready
        current_idx notes =
      (notes, fun p => if p = number then some current_idx else note_onsets_ready p) := by
  rw [token_note_to_note, ho]

lemma token_note_to_note_some_lt (number current_velocity default_velocity : Int)
    (note_onsets_ready : Int → Option Int) (current_idx : Int) (notes : List NoteEv)
    (onset_idx : Int) (ho : note_onsets_ready number = some onset_idx)
    (hlt : onset_idx < current_idx) :
    token_note_to_note number current_velocity default_velocity note_onsets_ready
        current_idx notes =
      (notes ++ [⟨onset_idx, current_idx, number, default_velocity⟩],
        fun p =>
          if p = number then (if current_velocity = 0 then none else some current_idx)
          else note_onsets_ready p) := by
  rw [token_note_to_note, ho]
  exact if_pos hlt

lemma token_note_to_note_some_ge (number current_velocity default_velocity : Int)
    (note_onsets_ready : Int → Option Int) (current_idx : Int) (notes : List NoteEv)
    (onset_idx : Int) (ho : note_onsets_ready number = some onset_idx)
    (hge : ¬ onset_idx < current_idx) :
    token_note_to_note number current_velocity default_velocity note_onsets_ready
        current_idx notes = (notes, note_onsets_ready) := by
  rw [token_note_to_note, ho]
  exact if_neg hge

lemma force_close_foldl (cfg : Config) (cutoff_time_idx : Option Int) (current_idx : Int)
    (note_onsets_ready : Int → Option Int) :
    ∀ (l : List Nat) (init : List NoteEv),
      List.foldl
        (fun acc pitch =>
          match close_note cfg cutoff_time_idx current_idx note_onsets_ready pitch with
          | none => acc
          | some note => acc ++ [note])
        init l
      = init ++ l.filterMap (close_note cfg cutoff_time_idx current_idx note_onsets_ready) := by
  intro l
  induction l with
  | nil => intro init; simp
  | cons a l ih =>
      intro init
      rw [List.foldl_cons, List.filterMap_cons]
      cases hg : close_note cfg cutoff_time_idx current_idx note_onsets_ready a with
      | none => simp only [hg, ih]
      | some b => simp only [hg, ih, List.append_assoc, List.singleton_append]

lemma force_close_eq (cfg : Config) (cutoff_time_idx : Option Int) (current_idx : Int)
    (note_onsets_ready : Int → Option Int) (notes : List NoteEv) :
    force_close cfg cutoff_time_idx current_idx note_onsets_ready notes =
      notes ++ (List.range (cfg.vocab_size_note + 1)).filterMap
        (close_note cfg cutoff_time_idx current_idx note_onsets_ready) := by
  rw [force_close, force_close_foldl]

lemma close_note_strict (cfg : Config) (cutoff_time_idx : Option Int) (current_idx : Int)
    (note_onsets_ready : Int → Option Int) (pitch : Nat) (n : NoteEv)
    (h : close_note cfg cutoff_time_idx current_idx note_onsets_ready pitch = some n) :
    n.onset < n.offset := by
  rw [close_note] at h
  cases ho : note_onsets_ready (pitch : Int) with
  | none => rw [ho] at h; exact absurd h (by simp)
  | some o =>
      rw [ho] at h
      simp only [Option.some.injEq] at h
      subst h
      cases cutoff_time_idx with
      | none => simp only [lt_max_iff, lt_sup_iff]; omega
      | some cutoff =>
          simp only [lt_max_iff, lt_sup_iff, le_max_iff, le_sup_iff]
          omega

lemma token_note_to_note_preserves (number current_velocity default_velocity : Int)
    (note_onsets_ready : Int → Option Int) (current_idx : Int) (notes : List NoteEv)
    (h : ∀ n ∈ notes, n.onset < n.offset) :
    ∀ n ∈ (token_note_to_note number current_velocity default_velocity
        note_onsets_ready current_idx notes).1, n.onset < n.offset := by
  cases ho : note_onsets_ready number with
  | none =>
      rw [token_note_to_note_none number current_velocity default_velocity
        note_onsets_ready current_idx notes ho]
      exact h
  | some onset_idx =>
      by_cases hlt : onset_idx < current_idx
      · rw [token_note_to_note_some_lt number current_velocity default_velocity
          note_onsets_ready current_idx notes onset_idx ho hlt]
        intro n hn
        rcases List.mem_append.mp hn with hn1 | hn2
        · exact h n hn1
        · rcases List.mem_singleton.mp hn2 with rfl
          exact hlt
      · rw [token_note_to_note_some_ge number current_velocity default_velocity
          note_onsets_ready current_idx notes onset_idx ho hlt]
        exact h

lemma scan_words_preserves (cfg : Config) (cutoff_time_idx : Option Int) :
    ∀ (words : List (TokenType × Int)) (current_idx current_velocity : Int)
      (note_onsets_ready : Int → Option Int) (notes : List NoteEv),
      (∀ n ∈ notes, n.onset < n.offset) →
      ∀ n ∈ (scan_words cfg cutoff_time_idx words current_idx current_velocity
          note_onsets_ready notes).2.2, n.onset < n.offset := by
  intro words
  induction words with
  | nil => intro ci cv onsets notes h; exact h
  | cons w rest ih =>
      intro ci cv onsets notes h
      obtain ⟨tt, number⟩ := w
      cases tt with
      | SPECIAL =>
          rw [scan_words]
          by_cases h1 : number = 1
          · rw [if_pos h1]; exact h
          · rw [if_neg h1]; exact ih ci cv onsets notes h
      | TIME => rw [scan_words]; exact ih _ cv onsets notes h
      | VELOCITY => rw [scan_words]; exact ih ci number onsets notes h
      | NOTE =>
          rw [scan_words]
          exact ih ci cv _ _
            (token_note_to_note_preserves number cv cfg.default_velocity onsets ci notes h)

lemma mem_insert_by_key (x : NoteEv) : ∀ (l : List NoteEv) (n : NoteEv),
    n ∈ insert_by_key x l ↔ n = x ∨ n ∈ l := by
  intro l
  induction l with
  | nil => intro n; simp [insert_by_key]
  | cons m ms ih =>
      intro n
      rw [insert_by_key]
      by_cases hk : note_key m < note_key x
      · rw [if_pos hk]
        simp only [List.mem_cons, ih]
        tauto
      · rw [if_neg hk]
        simp only [List.mem_cons]

lemma mem_sort_notes (l : List NoteEv) (n : NoteEv) : n ∈ sort_notes l ↔ n ∈ l := by
  induction l with
  | nil => simp [sort_notes]
  | cons m ms ih =>
      rw [show sort_notes (m :: ms) = insert_by_key m (sort_notes ms) from rfl,
        mem_insert_by_key, ih]
      simp

/-- C9: every note returned by relative_tokens_to_notes has a strictly
smaller onset index than offset index: mid-scan emission is guarded by
onset < cursor, and force-closed onsets receive an offset of at least
onset + 1. -/
theorem C9_onset_lt_offset (cfg : Config) (tokens : List Int) (start_idx : Int)
    (cutoff_time_idx : Option Int) :
    ∀ n ∈ relative_tokens_to_notes cfg tokens start_idx cutoff_time_idx,
      n.onset < n.offset := by
  intro n hn
  rw [relative_tokens_to_notes] at hn
  by_cases hd : decoded_notes cfg tokens start_idx cutoff_time_idx = []
  · rw [if_pos hd] at hn
    exact absurd hn (List.not_mem_nil n)
  · rw [if_neg hd, mem_sort_notes, decoded_notes, force_close_eq] at hn
    rcases List.mem_append.mp hn with hn1 | hn2
    · exact scan_words_preserves cfg cutoff_time_idx
        ((trim_leading_eos cfg tokens).map (fun token => convert_id_to_token cfg token 0))
        start_idx 0 (fun _ => none) []
        (fun m hm => absurd hm (List.not_mem_nil m)) n hn1
    · rcases List.mem_filterMap.mp hn2 with ⟨pitch, _, hp⟩
      exact close_note_strict cfg cutoff_time_idx _ _ pitch n hp

/-- C9 witness: decoding the single NOTE id 4 with cutoff 12 returns the
note (0, 12, 0, 77), whose onset is strictly below its offset. -/
theorem C9_witness :
    (⟨0, 12, 0, 77⟩ : NoteEv) ∈ relative_tokens_to_notes defaultConfig [4] 0 (some 12) ∧
    (⟨0, 12, 0, 77⟩ : NoteEv).onset < (⟨0, 12, 0, 77⟩ : NoteEv).offset :=
  ⟨by decide, C9_onset_lt_offset defaultConfig [4] 0 (some 12) ⟨0, 12, 0, 77⟩ (by decide)⟩



lemma decode_note_id (cfg : Config) (p : Int) (hp0 : 0 ≤ p)
    (hpN : p < (cfg.vocab_size_note : Int)) :
    convert_id_to_token cfg ((cfg.vocab_size_special : Int) + p) 0 = (TokenType.NOTE, p) := by
  rw [convert_id_to_token, if_neg (by omega), if_neg (by omega), if_pos (by omega)]
  simp only [Prod.mk.injEq]
  exact ⟨trivial, by ring⟩

lemma filterMap_range_singleton {β : Type} (f : Nat → Option β) (k : Nat) (x : β) :
    ∀ m, k < m → f k = some x → (∀ j, j ≠ k → f j = none) →
      (List.range m).filterMap f = [x] := by
  intro m
  induction m with
  | zero => intro hk; omega
  | succ m ih =>
      intro hk hfk hother
      rw [List.range_succ, List.filterMap_append]
      by_cases hkm : k < m
      · rw [ih hkm hfk hother, List.filterMap_cons, hother m (by omega), List.filterMap_nil]
        rfl
      · have hkm2 : k = m := by omega
        subst hkm2
        have hnil : (List.range k).filterMap f = [] := by
          rw [List.filterMap_eq_nil_iff]
          intro j hj
          exact hother j (by rcases List.mem_range.mp hj with h2; omega)
        rw [hnil, List.filterMap_cons, hfk, List.filterMap_nil, List.nil_append]

/-- C7: decoding a segment consisting of exactly one NOTE token for a
valid pitch p, with no closing event and no cutoff, produces exactly one
note (start_idx, start_idx + 1, p, default_velocity): the scan records a
pending onset at the cursor and the force-close pass closes it one index
later. -/
theorem C7_single_note (cfg : Config) (p : Int) (hp0 : 0 ≤ p)
    (hpN : p < (cfg.vocab_size_note : Int)) (start_idx : Int) :
    relative_tokens_to_notes cfg [(cfg.vocab_size_special : Int) + p] start_idx none =
      [⟨start_idx, start_idx + 1, p, cfg.default_velocity⟩] := by
  have hcast : ((p.toNat : Int)) = p := Int.toNat_of_nonneg hp0
  have hscan : scan_result cfg [(cfg.vocab_size_special : Int) + p] start_idx none =
      (start_idx, (fun q => if q = p then some start_idx else none), []) := by
    rw [scan_result, trim_leading_eos, if_neg (by omega), List.map_cons, List.map_nil,
      decode_note_id cfg p hp0 hpN, scan_words,
      token_note_to_note_none p 0 cfg.default_velocity (fun _ => none) start_idx [] rfl]
    simp [scan_words]
  have hclose_at : close_note cfg none start_idx
      (fun q => if q = p then some start_idx else none) p.toNat =
      some ⟨start_idx, start_idx + 1, p, cfg.default_velocity⟩ := by
    simp only [close_note, hcast, if_pos]
    simp only [Option.some.injEq, NoteEv.mk.injEq]
    refine ⟨by trivial, by omega, by trivial, by trivial⟩
  have hclose_other : ∀ j, j ≠ p.toNat → close_note cfg none start_idx
      (fun q => if q = p then some start_idx else none) j = none := by
    intro j hj
    have hne : ¬ ((j : Int) = p) := by omega
    simp only [close_note, hne, if_false, ite_false]
  have hdec : decoded_notes cfg [(cfg.vocab_size_special : Int) + p] start_idx none =
      [⟨start_idx, start_idx + 1, p, cfg.default_velocity⟩] := by
    rw [decoded_notes, hscan]
    dsimp only
    rw [force_close_eq,
      filterMap_range_singleton
        (close_note cfg none start_idx (fun q => if q = p then some start_idx else none))
        p.toNat _ (cfg.vocab_size_note + 1) (by omega) hclose_at hclose_other,
      List.nil_append]
  rw [relative_tokens_to_notes, hdec, if_neg (by simp)]
  rfl

/-- C7 witness: pitch 60 at start index 9 in the default configuration. -/
theorem C7_witness :
    relative_tokens_to_notes defaultConfig [64] 9 none = [⟨9, 10, 60, 77⟩] := by
  have h := C7_single_note defaultConfig 60 (by decide) (by decide) 9
  simpa using h



/-- C5 counterexample: the Materializer subtracts the first extrapolated
beatstep value (line 266 passes offset_sec = beatstep[beat_offset_idx]
over the extrapolated grid), while the final shift of lines 498-499 adds
the first raw beatstep value. With extrapolated grid starting at 5 and
raw beatstep starting at 3, the single decoded note has onset 0 and
offset 12, whose grid values are 5 and 17, but the returned start and end
are 3 and 15: adding the raw head does not restore the grid values. -/
theorem C5_counterexample :
    orchestrate_example defaultConfig [[4]] [5, 6, 7, 8, 9, 10, 11, 12, 13, 14, 15, 16, 17] 3 =
      [{ velocity := 77, pitch := 0, start := 3, end_ := 15 }] ∧
    ([5, 6, 7, 8, 9, 10, 11, 12, 13, 14, 15, 16, 17] : List ℚ).getD 0 0 = 5 ∧
    ([5, 6, 7, 8, 9, 10, 11, 12, 13, 14, 15, 16, 17] : List ℚ).getD 12 0 = 17 ∧
    (3 : ℚ) ≠ 5 ∧ (15 : ℚ) ≠ 17 := by
  refine ⟨?_, by norm_num [List.getD], by norm_num [List.getD], by norm_num, by norm_num⟩
  have h1 : relative_batch_tokens_to_notes defaultConfig [[4]] 0
      ((defaultConfig.num_bars : Int)) (((defaultConfig.num_bars : Int) + 1) * 4) =
      [⟨0, 12, 0, 77⟩] := by decide
  simp only [orchestrate_example, relative_batch_tokens_to_midi, notes_to_midi, h1,
    List.map_cons, List.map_nil, List.getD, Int.toNat]
  norm_num [defaultConfig, List.getD]

/-- C5 (amended): the start and end of every returned note equal the
extrapolated-beatstep grid values at its onset and offset indices minus
the first extrapolated value plus the first raw beatstep value; they
equal the grid values themselves exactly when the first value of the
extrapolated grid coincides with the first raw beatstep value of the
example. -/
theorem C5_shift_equals_grid (cfg : Config) (tokens : List (List Int))
    (extrapolated_beatstep : List ℚ) (beatsteps_head : ℚ)
    (h : extrapolated_beatstep.getD 0 0 = beatsteps_head) :
    orchestrate_example cfg tokens extrapolated_beatstep beatsteps_head =
      (relative_batch_tokens_to_notes cfg tokens 0 (cfg.num_bars : Int)
          (((cfg.num_bars : Int) + 1) * 4)).map
        (fun n =>
          { velocity := n.velocity, pitch := n.pitch,
            start := extrapolated_beatstep.getD n.onset.toNat 0,
            end_ := extrapolated_beatstep.getD n.offset.toNat 0 }) := by
  rw [orchestrate_example, relative_batch_tokens_to_midi, notes_to_midi, List.map_map]
  congr 1
  funext n
  have h0 : ((0 : Int).toNat) = 0 := rfl
  simp only [Function.comp_apply, h0, MidiNote.mk.injEq]
  refine ⟨by trivial, by trivial, ?_, ?_⟩
  · rw [h]; ring
  · rw [h]; ring

/-- C5 witness: with an extrapolated grid whose first value equals the
raw beatstep head 3, the returned notes are exactly the grid values at
their onset and offset indices. -/
theorem C5_witness :
    orchestrate_example defaultConfig [[4]] [3, 6, 7, 8, 9, 10, 11, 12, 13, 14, 15, 16, 17] 3 =
      (relative_batch_tokens_to_notes defaultConfig [[4]] 0 (defaultConfig.num_bars : Int)
          (((defaultConfig.num_bars : Int) + 1) * 4)).map
        (fun n =>
          { velocity := n.velocity, pitch := n.pitch,
            start := ([3, 6, 7, 8, 9, 10, 11, 12, 13, 14, 15, 16, 17] : List ℚ).getD n.onset.toNat 0,
            end_ := ([3, 6, 7, 8, 9, 10, 11, 12, 13, 14, 15, 16, 17] : List ℚ).getD n.offset.toNat 0 }) :=
  C5_shift_equals_grid defaultConfig [[4]] [3, 6, 7, 8, 9, 10, 11, 12, 13, 14, 15, 16, 17] 3 rfl


end Pop2Piano
